import Mathlib

/-!
Verification of the platinumsource engine core against its specification.

The Rust sources are shallowly embedded:

* `f32` is modeled by `F32`: an exact rational for every finite value plus
  the three non-finite values `inf`, `negInf`, `nan`.  Finite arithmetic is
  exact (rounding, overflow-to-infinity and the signed-zero distinction are
  not modeled); the IEEE special-value rules for non-finite operands are
  modeled explicitly.
* machine integers (`u16`, `u32`, `u64`) are `Nat` with explicit `% 2 ^ w`
  where the code can wrap.
* fallible operations return `Option`.
* the JSON codec (`serde_json`) is modeled at the level of JSON documents:
  serializing and reparsing a document is the identity on values, so
  `encode_to_bytes` / `decode_from_bytes` are modeled as maps to and from a
  `Json` value type.  serde_json serializes non-finite floats as `null`,
  and refuses `null` when deserializing a float.
-/

/-- Model of Rust `f32`: finite values idealized as exact rationals, plus
the IEEE non-finite values. -/
inductive F32 where
  | finite (q : ℚ)
  | inf
  | negInf
  | nan
deriving DecidableEq

/-- IEEE `<` on `F32`: `nan` is incomparable to everything. -/
def F32.lt : F32 → F32 → Bool
  | .nan, _ => false
  | _, .nan => false
  | .inf, _ => false
  | .finite _, .inf => true
  | .negInf, .inf => true
  | .negInf, .negInf => false
  | .negInf, .finite _ => true
  | .finite a, .finite b => decide (a < b)
  | .finite _, .negInf => false

/-- Rust `f32::clamp(self, min, max)`: `if self < min then min else if
self > max then max else self` (NaN propagates). -/
def F32.clamp (x lo hi : F32) : F32 :=
  if x.lt lo then lo else if hi.lt x then hi else x

/-- IEEE addition on the model. -/
def F32.add : F32 → F32 → F32
  | .nan, _ => .nan
  | _, .nan => .nan
  | .inf, .negInf => .nan
  | .negInf, .inf => .nan
  | .inf, _ => .inf
  | _, .inf => .inf
  | .negInf, _ => .negInf
  | _, .negInf => .negInf
  | .finite a, .finite b => .finite (a + b)

/-- IEEE subtraction on the model. -/
def F32.sub : F32 → F32 → F32
  | .nan, _ => .nan
  | _, .nan => .nan
  | .inf, .inf => .nan
  | .negInf, .negInf => .nan
  | .inf, _ => .inf
  | .negInf, _ => .negInf
  | _, .inf => .negInf
  | _, .negInf => .inf
  | .finite a, .finite b => .finite (a - b)

/-- IEEE multiplication on the model (`inf * 0 = nan`). -/
def F32.mul : F32 → F32 → F32
  | .nan, _ => .nan
  | _, .nan => .nan
  | .finite a, .finite b => .finite (a * b)
  | .inf, .inf => .inf
  | .inf, .negInf => .negInf
  | .negInf, .inf => .negInf
  | .negInf, .negInf => .inf
  | .inf, .finite b => if b = 0 then .nan else if 0 < b then .inf else .negInf
  | .finite a, .inf => if a = 0 then .nan else if 0 < a then .inf else .negInf
  | .negInf, .finite b => if b = 0 then .nan else if 0 < b then .negInf else .inf
  | .finite a, .negInf => if a = 0 then .nan else if 0 < a then .negInf else .inf

/-- Whether an `F32` is a finite value. -/
def F32.isFinite : F32 → Bool
  | .finite _ => true
  | _ => false

/-- `src/engine_shared/src/math.rs`: `Vec3` of three `f32`. -/
structure Vec3 where
  x : F32
  y : F32
  z : F32
deriving DecidableEq

/-- `Vec3::new`. -/
def Vec3.new (x y z : F32) : Vec3 := ⟨x, y, z⟩

/-- `Vec3::ZERO`. -/
def Vec3.ZERO : Vec3 := ⟨.finite 0, .finite 0, .finite 0⟩

/-- `Vec3::lerp(self, to, t)`: clamps `t` to `[0,1]` then computes
`self + (to - self) * t` componentwise (`tgt` is the `to` argument). -/
def Vec3.lerp (self tgt : Vec3) (t : F32) : Vec3 :=
  let t := t.clamp (.finite 0) (.finite 1)
  Vec3.new (self.x.add ((tgt.x.sub self.x).mul t))
    (self.y.add ((tgt.y.sub self.y).mul t))
    (self.z.add ((tgt.z.sub self.z).mul t))

/-- All components of a `Vec3` are finite. -/
def Vec3.allFinite (v : Vec3) : Bool :=
  v.x.isFinite && v.y.isFinite && v.z.isFinite

/-- `src/engine_shared/src/ecs.rs`: `EntityId(pub u64)`. -/
structure EntityId where
  val : Nat
deriving DecidableEq

/-- `src/engine_shared/src/net.rs`: `ClientId(pub u32)`. -/
structure ClientId where
  val : Nat
deriving DecidableEq

/-- `net.rs`: `EntityState { id, position }`. -/
structure EntityState where
  id : EntityId
  position : Vec3
deriving DecidableEq

/-- `net.rs`: `Snapshot { tick: u32, entities }`. -/
structure Snapshot where
  tick : Nat
  entities : List EntityState
deriving DecidableEq

/-- `src/engine_client/src/interp.rs`: `SnapshotBuffer { history, max }`.
The `VecDeque` is a list whose head is the front (oldest snapshot). -/
structure SnapshotBuffer where
  history : List Snapshot
  max : Nat
deriving DecidableEq

/-- `SnapshotBuffer::new(max)`. -/
def SnapshotBuffer.new (max : Nat) : SnapshotBuffer := ⟨[], max⟩

/-- The derived `Default` instance: empty `VecDeque`, `max = usize::default() = 0`. -/
def SnapshotBuffer.defaultValue : SnapshotBuffer := ⟨[], 0⟩

/-- The `while self.history.len() > self.max { self.history.pop_front(); }`
loop in `SnapshotBuffer::push`. -/
def SnapshotBuffer.shrink (max : Nat) : List Snapshot → List Snapshot
  | [] => []
  | s :: rest =>
    if rest.length + 1 > max then SnapshotBuffer.shrink max rest else s :: rest

/-- `SnapshotBuffer::push`: append at the back, then drop from the front
while over capacity. -/
def SnapshotBuffer.push (b : SnapshotBuffer) (snap : Snapshot) : SnapshotBuffer :=
  ⟨SnapshotBuffer.shrink b.max (b.history ++ [snap]), b.max⟩

/-- `SnapshotBuffer::len`. -/
def SnapshotBuffer.len (b : SnapshotBuffer) : Nat := b.history.length

/-- `SnapshotBuffer::is_empty`. -/
def SnapshotBuffer.isEmpty (b : SnapshotBuffer) : Bool := b.history.isEmpty

/-- `SnapshotBuffer::last_snapshot`. -/
def SnapshotBuffer.last_snapshot (b : SnapshotBuffer) : Option Snapshot :=
  b.history.getLast?

/-- `interp.rs` line 52: `a.entities.iter().find(|e| e.id == entity).map(|e| e.position)`. -/
def Snapshot.findPos (s : Snapshot) (entity : EntityId) : Option Vec3 :=
  (s.entities.find? fun e => decide (e.id = entity)).map fun e => e.position

/-- `SnapshotBuffer::interp_entity`: `None` with fewer than two snapshots;
otherwise look the entity up in the two most recent snapshots and lerp. -/
def SnapshotBuffer.interp_entity (b : SnapshotBuffer) (entity : EntityId) (alpha : F32) :
    Option Vec3 :=
  if h : b.history.length < 2 then none
  else
    let a := b.history.get ⟨b.history.length - 2, by omega⟩
    let b2 := b.history.get ⟨b.history.length - 1, by omega⟩
    match a.findPos entity, b2.findPos entity with
    | some pa, some pb => some (pa.lerp pb alpha)
    | _, _ => none

/-- Push a whole list of snapshots in order. -/
def SnapshotBuffer.pushAll (b : SnapshotBuffer) (l : List Snapshot) : SnapshotBuffer :=
  l.foldl SnapshotBuffer.push b

/-- `net.rs`: `MapInfo { name, crc: u32, size: u64 }`. -/
structure MapInfo where
  name : String
  crc : Nat
  size : Nat
deriving DecidableEq

/-- `net.rs`: `EntitySpawn { id, classname, position, properties }`. -/
structure EntitySpawn where
  id : EntityId
  classname : String
  position : Vec3
  properties : List (String × String)
deriving DecidableEq

/-- `net.rs`: `PlayerCommand { client_id, tick: u32, wish }`. -/
structure PlayerCommand where
  client_id : ClientId
  tick : Nat
  wish : Vec3
deriving DecidableEq

/-- `net.rs`: the `NetMsg` message union. -/
inductive NetMsg where
  | Hello (protocol : Nat)
  | UdpHello (client_udp_port : Nat)
  | Welcome (client_id : ClientId)
  | MapInfo (info : MapInfo)
  | ClientReady (client_id : ClientId)
  | EntitySpawn (spawn : EntitySpawn)
  | EntityUpdate (state : EntityState)
  | EntityDelete (id : EntityId)
  | PlayerCommand (cmd : PlayerCommand)
  | Snapshot (snap : Snapshot)
  | ServerPrint (message : String)
  | ClientCommand (command : String)
  | Disconnect (reason : String)
deriving DecidableEq

/-- `net.rs`: `PROTOCOL_VERSION = 1`. -/
def PROTOCOL_VERSION : Nat := 1

/-- JSON documents, as produced and consumed by serde_json.  Numbers are
exact rationals (serde_json prints finite `f32` values losslessly and
parses them back to the same value). -/
inductive Json where
  | null
  | num (q : ℚ)
  | str (s : String)
  | arr (elems : List Json)
  | obj (fields : List (String × Json))

/-- serde_json serialization of an `f32`: non-finite values become `null`. -/
def encF32 : F32 → Json
  | .finite q => .num q
  | _ => .null

/-- serde_json serialization of an unsigned integer. -/
def encNat (n : Nat) : Json := .num (n : ℚ)

/-- Serialization of `Vec3 { x, y, z }` (a struct with three named fields). -/
def encVec3 (v : Vec3) : Json :=
  .obj [("x", encF32 v.x), ("y", encF32 v.y), ("z", encF32 v.z)]

/-- `EntityId` is a newtype struct: serializes as its inner `u64`. -/
def encEntityId (e : EntityId) : Json := encNat e.val

/-- `ClientId` is a newtype struct: serializes as its inner `u32`. -/
def encClientId (c : ClientId) : Json := encNat c.val

/-- Serialization of `EntityState`. -/
def encEntityState (s : EntityState) : Json :=
  .obj [("id", encEntityId s.id), ("position", encVec3 s.position)]

/-- Serialization of `Snapshot`. -/
def encSnapshot (s : Snapshot) : Json :=
  .obj [("tick", encNat s.tick), ("entities", .arr (s.entities.map encEntityState))]

/-- Serialization of `Vec<(String, String)>`: an array of 2-element arrays. -/
def encProps (l : List (String × String)) : Json :=
  .arr (l.map fun kv => .arr [.str kv.1, .str kv.2])

/-- Serialization of `EntitySpawn`. -/
def encEntitySpawn (s : EntitySpawn) : Json :=
  .obj [("id", encEntityId s.id), ("classname", .str s.classname),
    ("position", encVec3 s.position), ("properties", encProps s.properties)]

/-- Serialization of `MapInfo`. -/
def encMapInfo (m : MapInfo) : Json :=
  .obj [("name", .str m.name), ("crc", encNat m.crc), ("size", encNat m.size)]

/-- Serialization of `PlayerCommand`. -/
def encPlayerCommand (c : PlayerCommand) : Json :=
  .obj [("client_id", encClientId c.client_id), ("tick", encNat c.tick),
    ("wish", encVec3 c.wish)]

/-- `net.rs` `encode_to_bytes`: serde's externally tagged representation of
the `NetMsg` enum, modeled at the JSON-document level (the byte string is
the UTF-8 printing of this document; printing then parsing is the identity
on documents). -/
def encode_to_bytes : NetMsg → Json
  | .Hello p => .obj [("Hello", .obj [("protocol", encNat p)])]
  | .UdpHello p => .obj [("UdpHello", .obj [("client_udp_port", encNat p)])]
  | .Welcome c => .obj [("Welcome", .obj [("client_id", encClientId c)])]
  | .MapInfo m => .obj [("MapInfo", encMapInfo m)]
  | .ClientReady c => .obj [("ClientReady", .obj [("client_id", encClientId c)])]
  | .EntitySpawn s => .obj [("EntitySpawn", encEntitySpawn s)]
  | .EntityUpdate s => .obj [("EntityUpdate", encEntityState s)]
  | .EntityDelete i => .obj [("EntityDelete", .obj [("id", encEntityId i)])]
  | .PlayerCommand c => .obj [("PlayerCommand", encPlayerCommand c)]
  | .Snapshot s => .obj [("Snapshot", encSnapshot s)]
  | .ServerPrint m => .obj [("ServerPrint", .obj [("message", .str m)])]
  | .ClientCommand c => .obj [("ClientCommand", .obj [("command", .str c)])]
  | .Disconnect r => .obj [("Disconnect", .obj [("reason", .str r)])]

/-- serde deserialization of an unsigned integer bounded by `lim` (for
`uN`, `lim = 2 ^ N`): the JSON number must be an integer in range. -/
def decUInt (lim : Nat) : Json → Option Nat
  | .num q => if q.den = 1 ∧ 0 ≤ q.num ∧ q.num < (lim : ℤ) then some q.num.toNat else none
  | _ => none

/-- serde deserialization of an `f32`: any JSON number; `null` (the
serialization of a non-finite float) is a type error. -/
def decF32 : Json → Option F32
  | .num q => some (.finite q)
  | _ => none

/-- Deserialization of `Vec3` from documents of the shape the serializer
emits. -/
def decVec3 : Json → Option Vec3
  | .obj [("x", jx), ("y", jy), ("z", jz)] => do
    let x ← decF32 jx
    let y ← decF32 jy
    let z ← decF32 jz
    some ⟨x, y, z⟩
  | _ => none

/-- Deserialization of `EntityId` (`u64`). -/
def decEntityId (j : Json) : Option EntityId := (decUInt (2 ^ 64) j).map EntityId.mk

/-- Deserialization of `ClientId` (`u32`). -/
def decClientId (j : Json) : Option ClientId := (decUInt (2 ^ 32) j).map ClientId.mk

/-- Deserialization of `EntityState`. -/
def decEntityState : Json → Option EntityState
  | .obj [("id", ji), ("position", jp)] => do
    let i ← decEntityId ji
    let p ← decVec3 jp
    some ⟨i, p⟩
  | _ => none

/-- Deserialize every element of a JSON array. -/
def decListWith {α : Type} (dec : Json → Option α) : List Json → Option (List α)
  | [] => some []
  | j :: rest => do
    let a ← dec j
    let as ← decListWith dec rest
    some (a :: as)

/-- Deserialization of `Snapshot`. -/
def decSnapshot : Json → Option Snapshot
  | .obj [("tick", jt), ("entities", .arr js)] => do
    let t ← decUInt (2 ^ 32) jt
    let es ← decListWith decEntityState js
    some ⟨t, es⟩
  | _ => none

/-- Deserialization of one `(String, String)` pair. -/
def decProp : Json → Option (String × String)
  | .arr [.str k, .str v] => some (k, v)
  | _ => none

/-- Deserialization of `EntitySpawn`. -/
def decEntitySpawn : Json → Option EntitySpawn
  | .obj [("id", ji), ("classname", .str c), ("position", jp), ("properties", .arr jps)] => do
    let i ← decEntityId ji
    let p ← decVec3 jp
    let props ← decListWith decProp jps
    some ⟨i, c, p, props⟩
  | _ => none

/-- Deserialization of `MapInfo`. -/
def decMapInfo : Json → Option MapInfo
  | .obj [("name", .str n), ("crc", jc), ("size", js)] => do
    let c ← decUInt (2 ^ 32) jc
    let s ← decUInt (2 ^ 64) js
    some ⟨n, c, s⟩
  | _ => none

/-- Deserialization of `PlayerCommand`. -/
def decPlayerCommand : Json → Option PlayerCommand
  | .obj [("client_id", jc), ("tick", jt), ("wish", jw)] => do
    let c ← decClientId jc
    let t ← decUInt (2 ^ 32) jt
    let w ← decVec3 jw
    some ⟨c, t, w⟩
  | _ => none

/-- Payload decoder for the `Hello` variant. -/
def decHello : Json → Option NetMsg
  | .obj [("protocol", j)] => (decUInt (2 ^ 32) j).map NetMsg.Hello
  | _ => none

/-- Payload decoder for the `UdpHello` variant. -/
def decUdpHello : Json → Option NetMsg
  | .obj [("client_udp_port", j)] => (decUInt (2 ^ 16) j).map NetMsg.UdpHello
  | _ => none

/-- Payload decoder for the `Welcome` variant. -/
def decWelcome : Json → Option NetMsg
  | .obj [("client_id", j)] => (decClientId j).map NetMsg.Welcome
  | _ => none

/-- Payload decoder for the `ClientReady` variant. -/
def decClientReady : Json → Option NetMsg
  | .obj [("client_id", j)] => (decClientId j).map NetMsg.ClientReady
  | _ => none

/-- Payload decoder for the `EntityDelete` variant. -/
def decEntityDelete : Json → Option NetMsg
  | .obj [("id", j)] => (decEntityId j).map NetMsg.EntityDelete
  | _ => none

/-- Payload decoder for the `ServerPrint` variant. -/
def decServerPrint : Json → Option NetMsg
  | .obj [("message", .str s)] => some (.ServerPrint s)
  | _ => none

/-- Payload decoder for the `ClientCommand` variant. -/
def decClientCommand : Json → Option NetMsg
  | .obj [("command", .str s)] => some (.ClientCommand s)
  | _ => none

/-- Payload decoder for the `Disconnect` variant. -/
def decDisconnect : Json → Option NetMsg
  | .obj [("reason", .str s)] => some (.Disconnect s)
  | _ => none

/-- Dispatch on the external enum tag of the `NetMsg` representation. -/
def decTagged (tag : String) (payload : Json) : Option NetMsg :=
  if tag = "Hello" then decHello payload
  else if tag = "UdpHello" then decUdpHello payload
  else if tag = "Welcome" then decWelcome payload
  else if tag = "MapInfo" then (decMapInfo payload).map NetMsg.MapInfo
  else if tag = "ClientReady" then decClientReady payload
  else if tag = "EntitySpawn" then (decEntitySpawn payload).map NetMsg.EntitySpawn
  else if tag = "EntityUpdate" then (decEntityState payload).map NetMsg.EntityUpdate
  else if tag = "EntityDelete" then decEntityDelete payload
  else if tag = "PlayerCommand" then (decPlayerCommand payload).map NetMsg.PlayerCommand
  else if tag = "Snapshot" then (decSnapshot payload).map NetMsg.Snapshot
  else if tag = "ServerPrint" then decServerPrint payload
  else if tag = "ClientCommand" then decClientCommand payload
  else if tag = "Disconnect" then decDisconnect payload
  else none

/-- `net.rs` `decode_from_bytes`, modeled at the JSON-document level: the
document must be a single-key object whose key is the variant tag. -/
def decode_from_bytes : Json → Option NetMsg
  | .obj [(tag, payload)] => decTagged tag payload
  | _ => none

/-- The integer fields of a message are within their Rust integer ranges
(automatic for every value the Rust types can hold). -/
def NetMsg.wf : NetMsg → Prop
  | .Hello p => p < 2 ^ 32
  | .UdpHello p => p < 2 ^ 16
  | .Welcome c => c.val < 2 ^ 32
  | .MapInfo m => m.crc < 2 ^ 32 ∧ m.size < 2 ^ 64
  | .ClientReady c => c.val < 2 ^ 32
  | .EntitySpawn s => s.id.val < 2 ^ 64
  | .EntityUpdate s => s.id.val < 2 ^ 64
  | .EntityDelete i => i.val < 2 ^ 64
  | .PlayerCommand c => c.client_id.val < 2 ^ 32 ∧ c.tick < 2 ^ 32
  | .Snapshot s => s.tick < 2 ^ 32 ∧ ∀ e ∈ s.entities, e.id.val < 2 ^ 64
  | .ServerPrint _ => True
  | .ClientCommand _ => True
  | .Disconnect _ => True

/-- All `f32` components occurring in a message are finite. -/
def NetMsg.floatsFinite : NetMsg → Prop
  | .EntitySpawn s => s.position.allFinite = true
  | .EntityUpdate s => s.position.allFinite = true
  | .PlayerCommand c => c.wish.allFinite = true
  | .Snapshot s => ∀ e ∈ s.entities, e.position.allFinite = true
  | _ => True

/-- Decidability of the integer-range predicate. -/
instance (m : NetMsg) : Decidable m.wf := by
  cases m <;> simp only [NetMsg.wf] <;> infer_instance

/-- Decidability of the finite-floats predicate. -/
instance (m : NetMsg) : Decidable m.floatsFinite := by
  cases m <;> simp only [NetMsg.floatsFinite] <;> infer_instance

theorem decTagged_Hello (p : Json) : decTagged "Hello" p = decHello p := rfl

theorem decTagged_UdpHello (p : Json) : decTagged "UdpHello" p = decUdpHello p := rfl

theorem decTagged_Welcome (p : Json) : decTagged "Welcome" p = decWelcome p := rfl

theorem decTagged_MapInfo (p : Json) :
    decTagged "MapInfo" p = (decMapInfo p).map NetMsg.MapInfo := rfl

theorem decTagged_ClientReady (p : Json) : decTagged "ClientReady" p = decClientReady p := rfl

theorem decTagged_EntitySpawn (p : Json) :
    decTagged "EntitySpawn" p = (decEntitySpawn p).map NetMsg.EntitySpawn := rfl

theorem decTagged_EntityUpdate (p : Json) :
    decTagged "EntityUpdate" p = (decEntityState p).map NetMsg.EntityUpdate := rfl

theorem decTagged_EntityDelete (p : Json) : decTagged "EntityDelete" p = decEntityDelete p := rfl

theorem decTagged_PlayerCommand (p : Json) :
    decTagged "PlayerCommand" p = (decPlayerCommand p).map NetMsg.PlayerCommand := rfl

theorem decTagged_Snapshot (p : Json) :
    decTagged "Snapshot" p = (decSnapshot p).map NetMsg.Snapshot := rfl

theorem decTagged_ServerPrint (p : Json) : decTagged "ServerPrint" p = decServerPrint p := rfl

theorem decUInt_encNat (lim n : Nat) (h : n < lim) : decUInt lim (encNat n) = some n := by
  simp [decUInt, encNat, Rat.num_natCast, Rat.den_natCast]
  omega

theorem F32.isFinite_iff (x : F32) : x.isFinite = true ↔ ∃ q, x = .finite q := by
  cases x <;> simp [F32.isFinite]

theorem decF32_encF32 (x : F32) (h : x.isFinite = true) : decF32 (encF32 x) = some x := by
  obtain ⟨q, rfl⟩ := (F32.isFinite_iff x).mp h
  rfl

theorem decVec3_encVec3 (v : Vec3) (h : v.allFinite = true) : decVec3 (encVec3 v) = some v := by
  obtain ⟨x, y, z⟩ := v
  simp [Vec3.allFinite] at h
  obtain ⟨qx, rfl⟩ := (F32.isFinite_iff x).mp h.1.1
  obtain ⟨qy, rfl⟩ := (F32.isFinite_iff y).mp h.1.2
  obtain ⟨qz, rfl⟩ := (F32.isFinite_iff z).mp h.2
  rfl

theorem decEntityId_enc (e : EntityId) (h : e.val < 2 ^ 64) :
    decEntityId (encEntityId e) = some e := by
  obtain ⟨n⟩ := e
  show (decUInt (2 ^ 64) (encNat n)).map EntityId.mk = some ⟨n⟩
  rw [decUInt_encNat (2 ^ 64) n h]
  rfl

theorem decClientId_enc (c : ClientId) (h : c.val < 2 ^ 32) :
    decClientId (encClientId c) = some c := by
  obtain ⟨n⟩ := c
  show (decUInt (2 ^ 32) (encNat n)).map ClientId.mk = some ⟨n⟩
  rw [decUInt_encNat (2 ^ 32) n h]
  rfl

theorem decEntityState_enc (s : EntityState) (hid : s.id.val < 2 ^ 64)
    (hp : s.position.allFinite = true) : decEntityState (encEntityState s) = some s := by
  obtain ⟨i, p⟩ := s
  simp [decEntityState, encEntityState, decEntityId_enc _ hid, decVec3_encVec3 _ hp]

theorem decListWith_entityStates (l : List EntityState)
    (h : ∀ e ∈ l, e.id.val < 2 ^ 64 ∧ e.position.allFinite = true) :
    decListWith decEntityState (l.map encEntityState) = some l := by
  induction l with
  | nil => rfl
  | cons e rest ih =>
    have he := h e (List.mem_cons_self e rest)
    simp [decListWith, decEntityState_enc e he.1 he.2,
      ih fun x hx => h x (List.mem_cons_of_mem e hx)]

theorem decListWith_props (l : List (String × String)) :
    decListWith decProp (l.map fun kv => Json.arr [.str kv.1, .str kv.2]) = some l := by
  induction l with
  | nil => rfl
  | cons kv rest ih => simp [decListWith, decProp, ih]

theorem decMapInfo_enc (m : MapInfo) (hc : m.crc < 2 ^ 32) (hs : m.size < 2 ^ 64) :
    decMapInfo (encMapInfo m) = some m := by
  obtain ⟨n, c, s⟩ := m
  simp only [decMapInfo, encMapInfo]
  rw [decUInt_encNat _ _ hc, decUInt_encNat _ _ hs]
  rfl

theorem decPlayerCommand_enc (c : PlayerCommand) (hc : c.client_id.val < 2 ^ 32)
    (ht : c.tick < 2 ^ 32) (hw : c.wish.allFinite = true) :
    decPlayerCommand (encPlayerCommand c) = some c := by
  obtain ⟨ci, t, w⟩ := c
  simp only [decPlayerCommand, encPlayerCommand]
  rw [decClientId_enc _ hc]
  simp only [Option.bind]
  rw [decUInt_encNat _ _ ht, decVec3_encVec3 _ hw]
  rfl

theorem decSnapshot_enc (s : Snapshot) (ht : s.tick < 2 ^ 32)
    (he : ∀ e ∈ s.entities, e.id.val < 2 ^ 64 ∧ e.position.allFinite = true) :
    decSnapshot (encSnapshot s) = some s := by
  obtain ⟨t, es⟩ := s
  simp only [decSnapshot, encSnapshot]
  rw [decUInt_encNat _ _ ht]
  simp only [Option.bind]
  rw [decListWith_entityStates es he]
  rfl

theorem decEntitySpawn_enc (s : EntitySpawn) (hid : s.id.val < 2 ^ 64)
    (hp : s.position.allFinite = true) :
    decEntitySpawn (encEntitySpawn s) = some s := by
  obtain ⟨i, c, p, props⟩ := s
  simp only [decEntitySpawn, encEntitySpawn, encProps]
  rw [decEntityId_enc _ hid]
  simp only [Option.bind]
  rw [decVec3_encVec3 _ hp]
  simp only [Option.bind]
  rw [decListWith_props]
  rfl

theorem shrink_eq_drop (max : Nat) (l : List Snapshot) :
    SnapshotBuffer.shrink max l = l.drop (l.length - max) := by
  induction l with
  | nil => simp [SnapshotBuffer.shrink]
  | cons s rest ih =>
    simp only [SnapshotBuffer.shrink]
    split
    · rename_i hgt
      rw [ih]
      have he : (s :: rest).length - max = (rest.length - max) + 1 := by
        simp only [List.length_cons]
        omega
      rw [he, List.drop_succ_cons]
    · rename_i hle
      have he : (s :: rest).length - max = 0 := by
        simp only [List.length_cons]
        omega
      rw [he, List.drop_zero]

theorem pushAll_history (l : List Snapshot) (b : SnapshotBuffer)
    (hb : b.history.length ≤ b.max) :
    (b.pushAll l).history = (b.history ++ l).drop (b.history.length + l.length - b.max) ∧
      (b.pushAll l).max = b.max := by
  induction l generalizing b with
  | nil =>
    have h0 : b.history.length + ([] : List Snapshot).length - b.max = 0 := by
      simp only [List.length_nil]
      omega
    rw [h0]
    simp [SnapshotBuffer.pushAll]
  | cons s rest ih =>
    have hpush : (b.push s).history = (b.history ++ [s]).drop (b.history.length + 1 - b.max) := by
      simp [SnapshotBuffer.push, shrink_eq_drop]
    have hmax : (b.push s).max = b.max := rfl
    have hlen : (b.push s).history.length ≤ (b.push s).max := by
      rw [hpush, hmax, List.length_drop]
      simp only [List.length_append, List.length_singleton]
      omega
    have step : b.pushAll (s :: rest) = (b.push s).pushAll rest := by
      simp [SnapshotBuffer.pushAll]
    obtain ⟨ih1, ih2⟩ := ih (b.push s) hlen
    refine ⟨?_, by rw [step, ih2, hmax]⟩
    rw [step, ih1, hpush, hmax, List.length_drop]
    have hd1 : b.history.length + 1 - b.max ≤ (b.history ++ [s]).length := by
      simp only [List.length_append, List.length_singleton]
      omega
    rw [← List.drop_append_of_le_length hd1, List.drop_drop]
    have happ : b.history ++ [s] ++ rest = b.history ++ (s :: rest) := by simp
    rw [happ]
    congr 1
    simp only [List.length_append, List.length_cons, List.length_nil]
    omega

/-- Claim C8: for a buffer created with `SnapshotBuffer::new(N)`, `N ≥ 1`,
after any sequence of `k` pushes `len()` equals `min(N, k)` and the retained
entries are exactly the `min(N, k)` most recently pushed snapshots in push
order (the suffix of the pushed sequence). -/
theorem C8_snapshot_buffer_bound (N : Nat) (hN : 1 ≤ N) (l : List Snapshot) :
    ((SnapshotBuffer.new N).pushAll l).len = min N l.length ∧
      ((SnapshotBuffer.new N).pushAll l).history = l.drop (l.length - N) := by
  obtain ⟨h1, _⟩ := pushAll_history l (SnapshotBuffer.new N) (by simp [SnapshotBuffer.new])
  simp only [show (SnapshotBuffer.new N).history = [] from rfl,
    show (SnapshotBuffer.new N).max = N from rfl, List.nil_append, List.length_nil,
    Nat.zero_add] at h1
  refine ⟨?_, h1⟩
  rw [SnapshotBuffer.len, h1, List.length_drop]
  omega

/-- A snapshot with a given tick and no entities (used as test data). -/
def snapT (n : Nat) : Snapshot := ⟨n, []⟩

/-- Witness for C8: capacity 2, three pushes, keeps the last two in order. -/
theorem C8_snapshot_buffer_bound_witness :
    1 ≤ 2 ∧
      (((SnapshotBuffer.new 2).pushAll [snapT 0, snapT 1, snapT 2]).len =
          min 2 ([snapT 0, snapT 1, snapT 2] : List Snapshot).length ∧
        ((SnapshotBuffer.new 2).pushAll [snapT 0, snapT 1, snapT 2]).history =
          ([snapT 0, snapT 1, snapT 2] : List Snapshot).drop
            (([snapT 0, snapT 1, snapT 2] : List Snapshot).length - 2)) :=
  ⟨by decide, C8_snapshot_buffer_bound 2 (by decide) [snapT 0, snapT 1, snapT 2]⟩

theorem pushAll_capacity_zero (l : List Snapshot) :
    SnapshotBuffer.defaultValue.pushAll l = SnapshotBuffer.defaultValue := by
  obtain ⟨h1, h2⟩ :=
    pushAll_history l SnapshotBuffer.defaultValue (by simp [SnapshotBuffer.defaultValue])
  have hsplit : SnapshotBuffer.defaultValue.pushAll l =
      ⟨(SnapshotBuffer.defaultValue.pushAll l).history,
        (SnapshotBuffer.defaultValue.pushAll l).max⟩ := rfl
  rw [hsplit, h1, h2]
  simp [SnapshotBuffer.defaultValue]

/-- Claim C10: a buffer from `SnapshotBuffer::default()` has capacity 0, so
after any pushes it stays empty: `len() = 0`, `is_empty()`, no last
snapshot, and `interp_entity` always `None`. -/
theorem C10_default_buffer_inert (l : List Snapshot) (e : EntityId) (a : F32) :
    (SnapshotBuffer.defaultValue.pushAll l).len = 0 ∧
      (SnapshotBuffer.defaultValue.pushAll l).isEmpty = true ∧
      (SnapshotBuffer.defaultValue.pushAll l).last_snapshot = none ∧
      (SnapshotBuffer.defaultValue.pushAll l).interp_entity e a = none := by
  rw [pushAll_capacity_zero]
  exact ⟨rfl, rfl, rfl, rfl⟩

theorem interp_cons (c : Snapshot) (t : List Snapshot) (mx : Nat) (e : EntityId) (alpha : F32)
    (h2 : 2 ≤ t.length) :
    SnapshotBuffer.interp_entity ⟨c :: t, mx⟩ e alpha =
      SnapshotBuffer.interp_entity ⟨t, mx⟩ e alpha := by
  unfold SnapshotBuffer.interp_entity
  have hc : ¬ ((c :: t).length < 2) := by simp only [List.length_cons]; omega
  have ht : ¬ (t.length < 2) := by omega
  simp only [List.length_cons]
  rw [dif_neg (by simpa using hc), dif_neg ht]
  have hk1 : t.length + 1 - 2 = (t.length - 2) + 1 := by omega
  have hk2 : t.length + 1 - 1 = (t.length - 1) + 1 := by omega
  simp only [hk1, hk2, List.get_cons_succ]

theorem interp_entity_eq (hist : List Snapshot) (mx : Nat) (e : EntityId) (alpha : F32)
    (init : List Snapshot) (A B : Snapshot) (hh : hist = init ++ [A, B]) :
    SnapshotBuffer.interp_entity ⟨hist, mx⟩ e alpha =
      match A.findPos e, B.findPos e with
      | some pa, some pb => some (pa.lerp pb alpha)
      | _, _ => none := by
  subst hh
  induction init with
  | nil => rfl
  | cons c rest ih =>
    rw [show (c :: rest) ++ [A, B] = c :: (rest ++ [A, B]) from rfl]
    rw [interp_cons c (rest ++ [A, B]) mx e alpha (by simp)]
    exact ih

theorem clamp_zero : (F32.finite 0).clamp (.finite 0) (.finite 1) = .finite 0 := by decide

theorem clamp_one : (F32.finite 1).clamp (.finite 0) (.finite 1) = .finite 1 := by decide

theorem clamp_half : (F32.finite (1/2)).clamp (.finite 0) (.finite 1) = .finite (1/2) := by
  have h1 : (F32.finite (1/2)).lt (.finite 0) = false := by
    simp only [F32.lt, decide_eq_false_iff_not]
    norm_num
  have h2 : (F32.finite 1).lt (.finite (1/2)) = false := by
    simp only [F32.lt, decide_eq_false_iff_not]
    norm_num
  simp only [F32.clamp]
  rw [h1, h2]
  simp

theorem clamp_of_neg (t : F32) (h : t.lt (.finite 0) = true) :
    t.clamp (.finite 0) (.finite 1) = .finite 0 := by
  simp [F32.clamp, h]

theorem clamp_of_big (t : F32) (h : (F32.finite 1).lt t = true) :
    t.clamp (.finite 0) (.finite 1) = .finite 1 := by
  cases t with
  | finite a =>
    simp only [F32.lt, decide_eq_true_eq] at h
    have h1 : F32.lt (.finite a) (.finite 0) = false := by
      simp only [F32.lt, decide_eq_false_iff_not]
      linarith
    have h2 : F32.lt (.finite 1) (.finite a) = true := by
      simp only [F32.lt, decide_eq_true_eq]
      exact h
    simp [F32.clamp, h1, h2]
  | inf => rfl
  | negInf => simp [F32.lt] at h
  | nan => simp [F32.lt] at h

theorem lerp_clamped (a1 a2 a3 b1 b2 b3 c : ℚ) (t : F32)
    (hcl : t.clamp (.finite 0) (.finite 1) = .finite c) :
    (Vec3.new (.finite a1) (.finite a2) (.finite a3)).lerp
        (Vec3.new (.finite b1) (.finite b2) (.finite b3)) t =
      Vec3.new (.finite (a1 + (b1 - a1) * c)) (.finite (a2 + (b2 - a2) * c))
        (.finite (a3 + (b3 - a3) * c)) := by
  simp [Vec3.lerp, hcl, F32.sub, F32.mul, F32.add, Vec3.new]

/-- Claim C7: `interp_entity(e, alpha)` returns `None` with fewer than two
snapshots, or when `e` is missing from either of the two most recent
snapshots; otherwise, with `A` second-most-recent and `B` most recent, it
returns `A.position + (B.position - A.position) * clamp(alpha, 0, 1)`
componentwise; at `alpha = 0` it is `A`'s position, at `alpha = 1` it is
`B`'s, at `alpha = 1/2` the componentwise midpoint, and outside `[0,1]`
the clamped endpoint (endpoint identities for finite components, with
finite `f32` arithmetic idealized as exact rational arithmetic). -/
theorem C7_interp_entity_spec (b : SnapshotBuffer) (e : EntityId) (alpha : F32) :
    (b.len < 2 → b.interp_entity e alpha = none) ∧
      (∀ init A B, b.history = init ++ [A, B] →
        ((A.findPos e = none ∨ B.findPos e = none) → b.interp_entity e alpha = none) ∧
        (∀ pa pb, A.findPos e = some pa → B.findPos e = some pb →
          (b.interp_entity e alpha =
            some (Vec3.new
              (pa.x.add ((pb.x.sub pa.x).mul (alpha.clamp (.finite 0) (.finite 1))))
              (pa.y.add ((pb.y.sub pa.y).mul (alpha.clamp (.finite 0) (.finite 1))))
              (pa.z.add ((pb.z.sub pa.z).mul (alpha.clamp (.finite 0) (.finite 1)))))) ∧
          (∀ a1 a2 a3 b1 b2 b3 : ℚ,
            pa = Vec3.new (.finite a1) (.finite a2) (.finite a3) →
            pb = Vec3.new (.finite b1) (.finite b2) (.finite b3) →
            (alpha = .finite 0 → b.interp_entity e alpha = some pa) ∧
            (alpha = .finite 1 → b.interp_entity e alpha = some pb) ∧
            (alpha = .finite (1/2) → b.interp_entity e alpha =
              some (Vec3.new (.finite ((a1 + b1) / 2)) (.finite ((a2 + b2) / 2))
                (.finite ((a3 + b3) / 2)))) ∧
            (alpha.lt (.finite 0) = true → b.interp_entity e alpha = some pa) ∧
            ((F32.finite 1).lt alpha = true → b.interp_entity e alpha = some pb)))) := by
  obtain ⟨hist, mx⟩ := b
  constructor
  · intro h
    unfold SnapshotBuffer.interp_entity
    exact dif_pos h
  · intro init A B hh
    simp only at hh
    have key := interp_entity_eq hist mx e alpha init A B hh
    constructor
    · intro hor
      rw [key]
      rcases hor with h | h
      · rw [h]
      · rw [h]
        cases A.findPos e <;> rfl
    · intro pa pb hA hB
      have keyAB : SnapshotBuffer.interp_entity ⟨hist, mx⟩ e alpha =
          some (pa.lerp pb alpha) := by
        rw [key, hA, hB]
      refine ⟨by rw [keyAB]; rfl, ?_⟩
      intro a1 a2 a3 b1 b2 b3 hpa hpb
      subst hpa
      subst hpb
      refine ⟨?_, ?_, ?_, ?_, ?_⟩
      · intro h0
        subst h0
        rw [keyAB, lerp_clamped a1 a2 a3 b1 b2 b3 0 _ clamp_zero]
        norm_num [Vec3.new]
      · intro h0
        subst h0
        rw [keyAB, lerp_clamped a1 a2 a3 b1 b2 b3 1 _ clamp_one]
        norm_num [Vec3.new]
      · intro h0
        subst h0
        rw [keyAB, lerp_clamped a1 a2 a3 b1 b2 b3 (1/2) _ clamp_half]
        congr 1
        simp only [Vec3.new, Vec3.mk.injEq, F32.finite.injEq]
        refine ⟨by ring, by ring, by ring⟩
      · intro h0
        rw [keyAB, lerp_clamped a1 a2 a3 b1 b2 b3 0 _ (clamp_of_neg alpha h0)]
        norm_num [Vec3.new]
      · intro h0
        rw [keyAB, lerp_clamped a1 a2 a3 b1 b2 b3 1 _ (clamp_of_big alpha h0)]
        norm_num [Vec3.new]

/-- The two-snapshot buffer of the interpolation scenario: entity 7 at
`(0,0,0)` in the older snapshot and `(2,4,6)` in the newer one. -/
def c7Buf : SnapshotBuffer :=
  ⟨[⟨0, [⟨⟨7⟩, ⟨.finite 0, .finite 0, .finite 0⟩⟩]⟩,
    ⟨1, [⟨⟨7⟩, ⟨.finite 2, .finite 4, .finite 6⟩⟩]⟩], 32⟩

/-- Witness for C7: the midpoint query on `c7Buf` returns `(1,2,3)`. -/
theorem C7_interp_entity_spec_witness :
    c7Buf.interp_entity ⟨7⟩ (.finite (1/2)) =
      some (Vec3.new (.finite 1) (.finite 2) (.finite 3)) := by
  have h := (C7_interp_entity_spec c7Buf ⟨7⟩ (.finite (1/2))).2 []
    ⟨0, [⟨⟨7⟩, ⟨.finite 0, .finite 0, .finite 0⟩⟩]⟩
    ⟨1, [⟨⟨7⟩, ⟨.finite 2, .finite 4, .finite 6⟩⟩]⟩ rfl
  have h2 := (h.2 (Vec3.new (.finite 0) (.finite 0) (.finite 0))
    (Vec3.new (.finite 2) (.finite 4) (.finite 6)) rfl rfl).2 0 0 0 2 4 6 rfl rfl
  have h3 := h2.2.2.1 rfl
  rw [h3]
  norm_num [Vec3.new]

/-- Claim C1 (amended): decoding the encoding of a message returns the
message for every `NetMsg` whose `f32` components are all finite (serde_json
serializes non-finite floats as `null`, which fails to decode as `f32`, so
the round-trip does not extend to arbitrary `f32` values). -/
theorem C1_codec_roundtrip (m : NetMsg) (hwf : m.wf) (hfin : m.floatsFinite) :
    decode_from_bytes (encode_to_bytes m) = some m := by
  cases m with
  | Hello p =>
    simp only [encode_to_bytes, decode_from_bytes, decTagged_Hello, decHello]
    rw [decUInt_encNat _ _ hwf]
    rfl
  | UdpHello p =>
    simp only [encode_to_bytes, decode_from_bytes, decTagged_UdpHello, decUdpHello]
    rw [decUInt_encNat _ _ hwf]
    rfl
  | Welcome c =>
    simp only [encode_to_bytes, decode_from_bytes, decTagged_Welcome, decWelcome]
    rw [decClientId_enc _ hwf]
    rfl
  | MapInfo i =>
    simp only [encode_to_bytes, decode_from_bytes, decTagged_MapInfo]
    rw [decMapInfo_enc _ hwf.1 hwf.2]
    rfl
  | ClientReady c =>
    simp only [encode_to_bytes, decode_from_bytes, decTagged_ClientReady, decClientReady]
    rw [decClientId_enc _ hwf]
    rfl
  | EntitySpawn s =>
    simp only [encode_to_bytes, decode_from_bytes, decTagged_EntitySpawn]
    rw [decEntitySpawn_enc _ hwf hfin]
    rfl
  | EntityUpdate s =>
    simp only [encode_to_bytes, decode_from_bytes, decTagged_EntityUpdate]
    rw [decEntityState_enc _ hwf hfin]
    rfl
  | EntityDelete i =>
    simp only [encode_to_bytes, decode_from_bytes, decTagged_EntityDelete, decEntityDelete]
    rw [decEntityId_enc _ hwf]
    rfl
  | PlayerCommand c =>
    simp only [encode_to_bytes, decode_from_bytes, decTagged_PlayerCommand]
    rw [decPlayerCommand_enc _ hwf.1 hwf.2 hfin]
    rfl
  | Snapshot s =>
    simp only [encode_to_bytes, decode_from_bytes, decTagged_Snapshot]
    rw [decSnapshot_enc _ hwf.1 fun e he => ⟨hwf.2 e he, hfin e he⟩]
    rfl
  | ServerPrint s => rfl
  | ClientCommand s => rfl
  | Disconnect s => rfl

/-- A snapshot message whose entity position holds a NaN `f32`: a value the
Rust `NetMsg` type can represent. -/
def c1NanMsg : NetMsg :=
  NetMsg.Snapshot ⟨0, [⟨⟨0⟩, ⟨F32.nan, F32.finite 0, F32.finite 0⟩⟩]⟩

/-- Witness for C1: a snapshot with finite float fields round-trips. -/
theorem C1_codec_roundtrip_witness :
    (NetMsg.Snapshot ⟨3, [⟨⟨2⟩, ⟨F32.finite 1, F32.finite 2, F32.finite 3⟩⟩]⟩).wf ∧
      (NetMsg.Snapshot ⟨3, [⟨⟨2⟩, ⟨F32.finite 1, F32.finite 2, F32.finite 3⟩⟩]⟩).floatsFinite ∧
      decode_from_bytes (encode_to_bytes
          (NetMsg.Snapshot ⟨3, [⟨⟨2⟩, ⟨F32.finite 1, F32.finite 2, F32.finite 3⟩⟩]⟩)) =
        some (NetMsg.Snapshot ⟨3, [⟨⟨2⟩, ⟨F32.finite 1, F32.finite 2, F32.finite 3⟩⟩]⟩) :=
  ⟨by decide, by decide, C1_codec_roundtrip _ (by decide) (by decide)⟩

/-- Counterexample for C1 as stated: a `NetMsg` with a NaN position field
(well-formed for the Rust types) fails to decode after encoding, so
`decode(encode(m)) = m` does not hold for arbitrary `f32` values. -/
theorem C1_codec_roundtrip_counterexample :
    c1NanMsg.wf ∧ decode_from_bytes (encode_to_bytes c1NanMsg) = none := by
  exact ⟨by decide, by decide⟩

/-- `net.rs`: the `NEXT_CLIENT_ID` atomic `u32` counter, starting at 1.
`new_unique_counter k` is its value after `k` calls of
`ClientId::new_unique` (`fetch_add(1)` wraps at `2 ^ 32`). -/
def new_unique_counter : Nat → Nat
  | 0 => 1
  | k + 1 => (new_unique_counter k + 1) % 2 ^ 32

/-- The value returned by the `k`-th (0-indexed) call of
`ClientId::new_unique`: `fetch_add` returns the pre-increment value. -/
def new_unique_at (k : Nat) : Nat := new_unique_counter k

theorem new_unique_counter_closed (k : Nat) : new_unique_counter k = (1 + k) % 2 ^ 32 := by
  induction k with
  | zero => simp [new_unique_counter]
  | succ k ih =>
    rw [new_unique_counter, ih]
    have hm : (2 : Nat) ^ 32 = 4294967296 := by norm_num
    rw [hm]
    omega

/-- Claim C9 (amended): among the first `2 ^ 32 - 1` calls of
`ClientId::new_unique`, no two calls return the same value and no call
returns 0; the guarantee stops there because the 32-bit counter wraps. -/
theorem C9_client_id_unique (i j : Nat) (hij : i < j) (hj : j < 2 ^ 32 - 1) :
    new_unique_at i ≠ new_unique_at j ∧ new_unique_at i ≠ 0 := by
  have hm : (2 : Nat) ^ 32 = 4294967296 := by norm_num
  have hi := new_unique_counter_closed i
  have hj2 := new_unique_counter_closed j
  rw [hm] at *
  unfold new_unique_at
  rw [hi, hj2]
  constructor <;> omega

/-- Counterexample for C9 as stated: the `2 ^ 32`-th call returns
`ClientId(0)` and the call after it repeats the value of the first call,
because `fetch_add` wraps the `u32` counter. -/
theorem C9_client_id_unique_counterexample :
    new_unique_at (2 ^ 32 - 1) = 0 ∧ new_unique_at (2 ^ 32) = new_unique_at 0 := by
  have h1 := new_unique_counter_closed (2 ^ 32 - 1)
  have h2 := new_unique_counter_closed (2 ^ 32)
  have h3 := new_unique_counter_closed 0
  unfold new_unique_at
  rw [h1, h2, h3]
  norm_num

/-- Witness for C9: the first two calls return distinct nonzero values. -/
theorem C9_client_id_unique_witness :
    0 < 1 ∧ 1 < 2 ^ 32 - 1 ∧ new_unique_at 0 ≠ new_unique_at 1 ∧ new_unique_at 0 ≠ 0 :=
  ⟨by decide, by norm_num, (C9_client_id_unique 0 1 (by decide) (by norm_num)).1,
    (C9_client_id_unique 0 1 (by decide) (by norm_num)).2⟩

/-- ASCII whitespace (Rust also splits exotic Unicode space classes; none
occur in any input considered here). -/
def isWsChar (c : Char) : Bool := c == ' ' || c == '\t' || c == '\n' || c == '\r'

/-- Accumulating worker for `splitWhitespace`. -/
def splitWsGo : List Char → List Char → List (List Char)
  | [], acc => if acc.isEmpty then [] else [acc.reverse]
  | c :: rest, acc =>
    if isWsChar c then
      if acc.isEmpty then splitWsGo rest [] else acc.reverse :: splitWsGo rest []
    else splitWsGo rest (c :: acc)

/-- Rust `str::split_whitespace`: split at whitespace runs, dropping empty
tokens. -/
def splitWhitespace (s : String) : List String :=
  (splitWsGo s.data []).map fun l => String.mk l

/-- Leading sign of a float literal: returns (is-negative, rest). -/
def parseSignChars : List Char → Bool × List Char
  | '+' :: rest => (false, rest)
  | '-' :: rest => (true, rest)
  | l => (false, l)

/-- Value of a decimal digit string. -/
def digitsVal (l : List Char) : Nat := l.foldl (fun a c => 10 * a + (c.toNat - 48)) 0

/-- Mantissa of a float literal: `digits [. digits]` or `. digits` (at least
one digit).  Returns ((combined digits value, fraction digit count), rest). -/
def parseMantissaParts (cs : List Char) : Option ((Nat × Nat) × List Char) :=
  let ip := cs.takeWhile Char.isDigit
  let rest := cs.dropWhile Char.isDigit
  match rest with
  | '.' :: rest2 =>
    let fp := rest2.takeWhile Char.isDigit
    let rest3 := rest2.dropWhile Char.isDigit
    if ip.isEmpty && fp.isEmpty then none
    else some ((digitsVal (ip ++ fp), fp.length), rest3)
  | _ => if ip.isEmpty then none else some ((digitsVal ip, 0), rest)

/-- Exponent suffix of a float literal: empty, or `(e|E) [sign] digits`
consuming the rest of the string. -/
def parseExpPart : List Char → Option Int
  | [] => some 0
  | c :: rest =>
    if c = 'e' || c = 'E' then
      let (neg, rest2) := parseSignChars rest
      let ds := rest2.takeWhile Char.isDigit
      let rest3 := rest2.dropWhile Char.isDigit
      if ds.isEmpty || !rest3.isEmpty then none
      else some (if neg then -(digitsVal ds : Int) else (digitsVal ds : Int))
    else none

/-- Combine mantissa, fraction length, sign and exponent into an exact
rational. -/
def applyExp (m f : Nat) (neg : Bool) (e : Int) : ℚ :=
  let num : Int := if neg then -(m : Int) else (m : Int)
  if 0 ≤ e then mkRat (num * ((10 : Nat) ^ e.toNat : Int)) (10 ^ f)
  else mkRat num (10 ^ f * 10 ^ (-e).toNat)

/-- Rust `"...".parse::<f32>()`: sign, then case-insensitive `inf`,
`infinity` or `nan`, or a decimal mantissa with optional exponent.  Finite
values are idealized as exact rationals (no rounding, no overflow to
infinity). -/
def parseF32 (s : String) : Option F32 :=
  match s.data with
  | [] => none
  | cs =>
    let (neg, cs2) := parseSignChars cs
    let lower := cs2.map Char.toLower
    if lower = ['i', 'n', 'f'] || lower = ['i', 'n', 'f', 'i', 'n', 'i', 't', 'y'] then
      some (if neg then .negInf else .inf)
    else if lower = ['n', 'a', 'n'] then some .nan
    else
      match parseMantissaParts cs2 with
      | none => none
      | some ((m, f), rest) =>
        match parseExpPart rest with
        | none => none
        | some e => some (.finite (applyExp m f neg e))

/-- `src/engine_shared/src/bsp.rs`: `BspEntity { classname, properties }`.
The `HashMap` of properties is an association list with unique keys
(insertion overwrites). -/
structure BspEntity where
  classname : String
  properties : List (String × String)
deriving DecidableEq

/-- `BspEntity::get`. -/
def BspEntity.get (e : BspEntity) (key : String) : Option String :=
  (e.properties.find? fun kv => kv.1 == key).map fun kv => kv.2

/-- `BspEntity::origin`: split the `origin` property on whitespace, keep the
tokens that parse as `f32`, and require exactly three. -/
def BspEntity.origin (e : BspEntity) : Option Vec3 :=
  match e.get "origin" with
  | none => none
  | some s =>
    match (splitWhitespace s).filterMap parseF32 with
    | [a, b, c] => some (Vec3.new a b c)
    | _ => none

/-- `bsp.rs`: the parsed `BspMap`.  The geometry lumps are retained as their
raw little-endian lump bytes: their fixed-stride record decoding
(`read_planes` and friends) cannot fail once the lump bytes are read, and
no claim reads the decoded numeric values. -/
structure BspMap where
  name : String
  version : Nat
  map_revision : Nat
  entities : List BspEntity
  planes : List Nat
  vertices : List Nat
  edges : List Nat
  surf_edges : List Nat
  faces : List Nat
  brushes : List Nat
  brush_sides : List Nat
  models : List Nat
deriving DecidableEq

/-- Whether the first list is a prefix of the second (Rust
`str::starts_with`, on the character lists). -/
def prefixChars : List Char → List Char → Bool
  | [], _ => true
  | _ :: _, [] => false
  | p :: ps, c :: cs => p == c && prefixChars ps cs

/-- Rust `str::starts_with` on strings. -/
def strStartsWith (s p : String) : Bool := prefixChars p.data s.data

/-- The classname filter of `BspMap::spawn_points`. -/
def isSpawnClass (e : BspEntity) : Bool :=
  strStartsWith e.classname "info_player" || e.classname == "info_target"

/-- `BspMap::spawn_points`: filter entities by classname, then keep the
origins that parse. -/
def BspMap.spawn_points (m : BspMap) : List Vec3 :=
  (m.entities.filter isSpawnClass).filterMap BspEntity.origin

/-- Claim C5 (amended): `spawn_points()` yields, in file order, one origin
per entity whose classname begins with `info_player` or equals
`info_target` AND whose `origin` property parses; a matching entity without
a parseable origin contributes nothing, and no other entity contributes. -/
theorem C5_spawn_points (m : BspMap) :
    m.spawn_points =
      m.entities.filterMap fun e => if isSpawnClass e then e.origin else none := by
  unfold BspMap.spawn_points
  rw [List.filterMap_filter]

/-- A map whose only entity matches the spawn classname filter but has no
`origin` property. -/
def c5Map : BspMap :=
  { name := "m", version := 19, map_revision := 0,
    entities := [⟨"info_player_start", []⟩],
    planes := [], vertices := [], edges := [], surf_edges := [],
    faces := [], brushes := [], brush_sides := [], models := [] }

/-- Counterexample for C5 as stated: `c5Map` has exactly one entity whose
classname matches, yet `spawn_points()` is empty, so not every matching
entity contributes an entry. -/
theorem C5_spawn_points_counterexample :
    (c5Map.entities.filter isSpawnClass).length = 1 ∧ c5Map.spawn_points = [] := by
  exact ⟨by decide, by decide⟩

/-- `bsp.rs`: `BSP_MAGIC` (little-endian "VBSP"). -/
def BSP_MAGIC : Nat := 0x50534256

/-- `bsp.rs`: `BSP_VERSION_MIN`. -/
def BSP_VERSION_MIN : Nat := 19

/-- `bsp.rs`: `BSP_VERSION_MAX`. -/
def BSP_VERSION_MAX : Nat := 21

/-- `bsp.rs`: `HEADER_LUMPS`. -/
def HEADER_LUMPS : Nat := 64

/-- Sequential `read_u32` (little-endian) from a byte stream, as
`read_exact` on a 4-byte buffer: fails if fewer than 4 bytes remain. -/
def readU32LE : List Nat → Option (Nat × List Nat)
  | b0 :: b1 :: b2 :: b3 :: rest =>
    some (b0 + 256 * b1 + 65536 * b2 + 16777216 * b3, rest)
  | _ => none

/-- Sequential `read_exact` of `n` bytes. -/
def readExact (n : Nat) (l : List Nat) : Option (List Nat × List Nat) :=
  if l.length < n then none else some (l.take n, l.drop n)

/-- `bsp.rs`: `LumpEntry { offset, length, version, fourcc }`. -/
structure LumpEntry where
  offset : Nat
  length : Nat
  version : Nat
  fourcc : List Nat
deriving DecidableEq

/-- Read `n` lump descriptors sequentially (16 bytes each). -/
def readLumps : Nat → List Nat → Option (List LumpEntry × List Nat)
  | 0, l => some ([], l)
  | n + 1, l => do
    let (off, l) ← readU32LE l
    let (len, l) ← readU32LE l
    let (ver, l) ← readU32LE l
    let (fc, l) ← readExact 4 l
    let (rest, l) ← readLumps n l
    some (⟨off, len, ver, fc⟩ :: rest, l)

/-- `bsp.rs`: `BspHeader`. -/
structure BspHeader where
  version : Nat
  lumps : List LumpEntry
  map_revision : Nat
deriving DecidableEq

/-- `BspMap::read_header`: magic check, version range check, 64 lump
descriptors, map revision.  Each failed read or check is a load error. -/
def read_header (bytes : List Nat) : Option BspHeader := do
  let (magic, r) ← readU32LE bytes
  if magic ≠ BSP_MAGIC then none
  else do
    let (version, r) ← readU32LE r
    if version < BSP_VERSION_MIN || version > BSP_VERSION_MAX then none
    else do
      let (lumps, r) ← readLumps HEADER_LUMPS r
      let (map_revision, _) ← readU32LE r
      some ⟨version, lumps, map_revision⟩

/-- `BspMap::read_lump`: an empty lump yields no bytes; otherwise seek to
`offset` and `read_exact` `length` bytes, failing when the file is too
short (a truncated lump). -/
def read_lump (bytes : List Nat) (header : BspHeader) (idx : Nat) : Option (List Nat) := do
  let lump ← header.lumps.get? idx
  if lump.length = 0 then some []
  else if bytes.length < lump.offset + lump.length then none
  else some ((bytes.drop lump.offset).take lump.length)

/-- `String::from_utf8_lossy`, restricted to ASCII: bytes ≥ 128 become the
replacement character (multi-byte UTF-8 sequences are not modeled; no
input considered here contains them). -/
def decodeLossy (bytes : List Nat) : String :=
  String.mk (bytes.map fun b => if b < 128 then Char.ofNat b else Char.ofNat 0xFFFD)

/-- Rust `str::trim` (ASCII whitespace), on the character list. -/
def trimChars (cs : List Char) : List Char :=
  ((cs.dropWhile isWsChar).reverse.dropWhile isWsChar).reverse

/-- Split a character list at newlines, keeping empty segments.  The source
iterates `str::lines` and trims each line, so the trailing `\r` of CRLF
endings and a final empty segment are both absorbed by the per-line
trim and the entity state machine. -/
def splitNlGo : List Char → List Char → List (List Char)
  | [], acc => [acc.reverse]
  | c :: rest, acc =>
    if c == '\n' then acc.reverse :: splitNlGo rest [] else splitNlGo rest (c :: acc)

/-- `bsp.rs` `parse_kv_line`: scan for four quote characters; the key is
between the first and second, the value between the third and fourth;
anything else on the line is ignored. -/
def splitAtQuote : List Char → Option (List Char × List Char)
  | [] => none
  | '"' :: rest => some ([], rest)
  | c :: rest => (splitAtQuote rest).map fun p => (c :: p.1, p.2)

/-- `parse_kv_line` on a line's characters. -/
def parse_kv_line (line : List Char) : Option (String × String) := do
  let (_, r1) ← splitAtQuote line
  let (key, r2) ← splitAtQuote r1
  let (_, r3) ← splitAtQuote r2
  let (value, _) ← splitAtQuote r3
  some (String.mk key, String.mk value)

/-- `HashMap::insert` on the association list: overwrite or append. -/
def insertProp : List (String × String) → String → String → List (String × String)
  | [], k, v => [(k, v)]
  | (k0, v0) :: rest, k, v =>
    if k0 == k then (k, v) :: rest else (k0, v0) :: insertProp rest k v

/-- The line-by-line state machine of `parse_entity_lump`: `{` opens an
entity, `}` pushes it, and a `"key" "value"` line inside an entity inserts
a property (promoting `classname`). -/
def parseEntGo : List (List Char) → Option BspEntity → Bool → List BspEntity
  | [], _, _ => []
  | line :: rest, current, inEnt =>
    let line := trimChars line
    if line = ['\x7b'] then parseEntGo rest (some ⟨"", []⟩) true
    else if line = ['\x7d'] then
      match current with
      | some ent => ent :: parseEntGo rest none false
      | none => parseEntGo rest none false
    else if inEnt then
      match parse_kv_line line, current with
      | some (k, v), some ent =>
        parseEntGo rest
          (some ⟨if k == "classname" then v else ent.classname, insertProp ent.properties k v⟩)
          true
      | _, _ => parseEntGo rest current inEnt
    else parseEntGo rest current inEnt

/-- `bsp.rs` `parse_entity_lump` (it always succeeds). -/
def parse_entity_lump (text : String) : List BspEntity :=
  parseEntGo (splitNlGo text.data []) none false

/-- `BspMap::load`, over a file system mapping a map name to the bytes of
`<maps_dir>/<name>.bsp` (absent when the file does not exist; the file
stem of that path is the map name).  Reads the header, parses the entity
lump, and reads the remaining lumps in source order. -/
def BspMap.load (fs : String → Option (List Nat)) (mapName : String) : Option BspMap := do
  let bytes ← fs mapName
  let header ← read_header bytes
  let entData ← read_lump bytes header 0
  let entities := parse_entity_lump (decodeLossy entData)
  let planes ← read_lump bytes header 1
  let vertices ← read_lump bytes header 3
  let edges ← read_lump bytes header 12
  let surf_edges ← read_lump bytes header 13
  let faces ← read_lump bytes header 7
  let brushes ← read_lump bytes header 18
  let brush_sides ← read_lump bytes header 19
  let models ← read_lump bytes header 14
  some { name := mapName, version := header.version, map_revision := header.map_revision,
         entities, planes, vertices, edges, surf_edges, faces, brushes, brush_sides, models }

/-- `ecs.rs`: the `Position` component. -/
structure Position where
  x : F32
  y : F32
  z : F32
deriving DecidableEq

/-- `ecs.rs`: `World`.  The server only ever stores `Position` components,
so the type-keyed storage map is modeled as the `Position` storage alone,
an association list with unique keys (`HashMap` iteration order is
arbitrary in Rust; the model keeps insertion order, and no claim depends
on the order). -/
structure World where
  next_id : Nat
  positions : List (EntityId × Position)
deriving DecidableEq

/-- `World::default()`. -/
def World.empty : World := ⟨0, []⟩

/-- `World::spawn`. -/
def World.spawn (w : World) : EntityId × World :=
  (⟨w.next_id⟩, { w with next_id := w.next_id + 1 })

/-- `HashMap::insert` on the `Position` storage: overwrite or append. -/
def insertPos : List (EntityId × Position) → EntityId → Position → List (EntityId × Position)
  | [], e, p => [(e, p)]
  | (e0, p0) :: rest, e, p =>
    if e0 = e then (e, p) :: rest else (e0, p0) :: insertPos rest e p

/-- `World::insert::<Position>`. -/
def World.insert (w : World) (e : EntityId) (p : Position) : World :=
  { w with positions := insertPos w.positions e p }

/-- `World::get::<Position>`. -/
def World.getPos (w : World) (e : EntityId) : Option Position :=
  (w.positions.find? fun kv => decide (kv.1 = e)).map fun kv => kv.2

/-- `World::get_mut::<Position>` followed by a write: update the component
in place when present, no effect when absent. -/
def World.updatePos (w : World) (e : EntityId) (f : Position → Position) : World :=
  { w with positions := w.positions.map fun kv => if kv.1 = e then (kv.1, f kv.2) else kv }

/-- `server.rs`: `ServerState`. -/
inductive ServerState where
  | Idle
  | LoadingMap
  | Running
deriving DecidableEq

/-- `server.rs`: `ClientState` (the reliable connection handle is an I/O
object and is not part of the state model; the datagram peer address is an
abstract `Nat`). -/
structure ClientState where
  id : ClientId
  udp_peer : Nat
  last_cmd_tick : Nat
  ready : Bool
  player_entity : Option EntityId
deriving DecidableEq

/-- `HashMap::insert` on the client table. -/
def insertClient : List (ClientId × ClientState) → ClientId → ClientState →
    List (ClientId × ClientState)
  | [], c, st => [(c, st)]
  | (c0, st0) :: rest, c, st =>
    if c0 = c then (c, st) :: rest else (c0, st0) :: insertClient rest c st

/-- `HashMap::get` on the client table. -/
def lookupClient (l : List (ClientId × ClientState)) (c : ClientId) : Option ClientState :=
  (l.find? fun kv => decide (kv.1 = c)).map fun kv => kv.2

/-- `HashMap::get_mut` followed by a write on the client table. -/
def updateClient (l : List (ClientId × ClientState)) (c : ClientId)
    (f : ClientState → ClientState) : List (ClientId × ClientState) :=
  l.map fun kv => if kv.1 = c then (kv.1, f kv.2) else kv

/-- `server.rs`: `GameServer`.  Sockets, config and the cvar console are
I/O collaborators and are not part of the state model; `next_client_id`
models the process-global `NEXT_CLIENT_ID` counter (current `u32` value),
scoped to this single server. -/
structure GameServer where
  world : World
  clients : List (ClientId × ClientState)
  tick : Nat
  state : ServerState
  current_map : Option BspMap
  next_client_id : Nat
deriving DecidableEq

/-- `GameServer::new`: no map, no clients, tick 0, `Idle`; the id counter
starts at 1. -/
def GameServer.new : GameServer :=
  { world := World.empty, clients := [], tick := 0, state := .Idle,
    current_map := none, next_client_id := 1 }

/-- `GameServer::map_info`. -/
def GameServer.map_info (s : GameServer) : Option MapInfo :=
  s.current_map.map fun m => { name := m.name, crc := 0, size := 0 }

/-- `GameServer::spawn_bsp_entities`: spawn one world entity per non-
`worldspawn` map entity, inserting a `Position` when the origin parses. -/
def spawnBspGo : World → List BspEntity → World
  | w, [] => w
  | w, ent :: rest =>
    if ent.classname == "worldspawn" then spawnBspGo w rest
    else
      let (id, w2) := w.spawn
      let w3 := match ent.origin with
        | some o => w2.insert id ⟨o.x, o.y, o.z⟩
        | none => w2
      spawnBspGo w3 rest

/-- `GameServer::load_map`: set `LoadingMap`, load the file; on success
reset the world, respawn the map entities, install the map, reset the tick
counter to 0 and enter `Running`; on failure return the error to the
caller (the `Bool` is success). -/
def GameServer.load_map (fs : String → Option (List Nat)) (s : GameServer)
    (map_name : String) : GameServer × Bool :=
  let s1 := { s with state := ServerState.LoadingMap }
  match BspMap.load fs map_name with
  | none => (s1, false)
  | some bsp =>
    let s2 := { s1 with world := spawnBspGo World.empty bsp.entities }
    ({ s2 with current_map := some bsp, tick := 0, state := ServerState.Running }, true)

/-- `GameServer::client_ready`: read the first spawn point (origin if
none), spawn a fresh world entity there, then mark the client ready and
record the entity only if the client is known. -/
def GameServer.client_ready (s : GameServer) (client_id : ClientId) :
    GameServer × EntityId :=
  let spawn_points := match s.current_map with
    | some m => m.spawn_points
    | none => []
  let spawn_pos := spawn_points.headD Vec3.ZERO
  let (ent, w2) := s.world.spawn
  let w3 := w2.insert ent ⟨spawn_pos.x, spawn_pos.y, spawn_pos.z⟩
  let clients2 := match lookupClient s.clients client_id with
    | some _ => updateClient s.clients client_id
        fun c => { c with ready := true, player_entity := some ent }
    | none => s.clients
  ({ s with world := w3, clients := clients2 }, ent)

/-- `GameServer::on_command`: for a known client, refresh its datagram
peer and last command tick, and nudge its player entity by `wish * 0.1`
(the literal `0.1f32` idealized as the rational 1/10). -/
def GameServer.on_command (s : GameServer) (source : Nat) (cmd : PlayerCommand) : GameServer :=
  match lookupClient s.clients cmd.client_id with
  | none => s
  | some c =>
    let clients2 := updateClient s.clients cmd.client_id
      fun cl => { cl with udp_peer := source, last_cmd_tick := cmd.tick }
    let world2 := match c.player_entity with
      | some eid => s.world.updatePos eid fun p =>
          ⟨p.x.add (cmd.wish.x.mul (.finite (mkRat 1 10))),
           p.y.add (cmd.wish.y.mul (.finite (mkRat 1 10))),
           p.z.add (cmd.wish.z.mul (.finite (mkRat 1 10)))⟩
      | none => s.world
    { s with clients := clients2, world := world2 }

/-- `GameServer::handle_udp_message`: dispatch a decoded datagram; any
other message is logged and dropped. -/
def GameServer.handle_udp_message (s : GameServer) (source : Nat) (msg : NetMsg) : GameServer :=
  match msg with
  | .PlayerCommand cmd => s.on_command source cmd
  | .ClientReady client_id => (s.client_ready client_id).1
  | .ClientCommand _ => s
  | _ => s

/-- `GameServer::exec_console`: built-in `map`, `status`, `quit`/`exit`
commands, anything else delegated to the cvar console (which never touches
the modeled server fields; `quit` terminates the process, which the state
model leaves as the identity).  Returns the output lines. -/
def GameServer.exec_console (fs : String → Option (List Nat)) (s : GameServer)
    (line : String) : GameServer × List String :=
  let tokens := splitWhitespace (String.mk (trimChars line.data))
  match tokens with
  | [] => (s, [])
  | t0 :: rest =>
    if t0 == "map" then
      match rest with
      | [] => (s, ["Usage: map <mapname>"])
      | name :: _ =>
        match s.load_map fs name with
        | (s2, true) => (s2, ["Map " ++ name ++ " loaded"])
        | (s2, false) => (s2, ["Failed to load map"])
    else if t0 == "status" then (s, ["status"])
    else if t0 == "quit" || t0 == "exit" then (s, [])
    else (s, [])

/-- One tick's external input: the console lines drained from the stdin
channel and the datagrams drained from the UDP socket (source address and
already-decoded message; undecodable datagrams are dropped before this
point). -/
structure StepInput where
  console : List String
  udp : List (Nat × NetMsg)
deriving Inhabited

/-- The snapshot built by `send_snapshots`: the current tick and every
entity with a `Position` component. -/
def GameServer.buildSnapshot (s : GameServer) : Snapshot :=
  ⟨s.tick, s.world.positions.map fun kv => ⟨kv.1, ⟨kv.2.x, kv.2.y, kv.2.z⟩⟩⟩

/-- `GameServer::step`: drain console commands, drain datagrams, simulate
(no-op), broadcast a snapshot to every ready client when `Running`, then
increment the tick.  Returns the broadcast snapshot (`none` when not
`Running`). -/
def GameServer.step (fs : String → Option (List Nat)) (s : GameServer)
    (inp : StepInput) : GameServer × Option Snapshot :=
  let s1 := inp.console.foldl (fun acc line => (GameServer.exec_console fs acc line).1) s
  let s2 := inp.udp.foldl (fun acc m => acc.handle_udp_message m.1 m.2) s1
  let emitted := if s2.state = ServerState.Running then some s2.buildSnapshot else none
  ({ s2 with tick := s2.tick + 1 }, emitted)

/-- Run a sequence of steps, collecting the broadcast snapshots in order. -/
def GameServer.run (fs : String → Option (List Nat)) (s : GameServer) :
    List StepInput → GameServer × List Snapshot
  | [] => (s, [])
  | inp :: rest =>
    let (s1, em) := s.step fs inp
    let (s2, ems) := s1.run fs rest
    (s2, (match em with | some sn => [sn] | none => []) ++ ems)

/-- `GameServer::accept_one`, over the transcript of messages the client
sends on the new reliable connection (with the client's datagram address
abstracted away).  Returns the messages the server sends back and the
allocated client id; a failed handshake returns the error (`none`), sends
nothing, and tears the connection down. -/
def GameServer.accept_one (s : GameServer) (msgs : List NetMsg) :
    GameServer × List NetMsg × Option ClientId :=
  match msgs with
  | NetMsg.Hello protocol :: rest =>
    if protocol = PROTOCOL_VERSION then
      match rest with
      | NetMsg.UdpHello client_udp_port :: _ =>
        let id : ClientId := ⟨s.next_client_id⟩
        let s2 := { s with next_client_id := (s.next_client_id + 1) % 2 ^ 32 }
        let sends := [NetMsg.Welcome id] ++
          (match s2.map_info with
            | some mi => [NetMsg.MapInfo mi]
            | none => [])
        let cs : ClientState :=
          { id := id, udp_peer := client_udp_port, last_cmd_tick := 0,
            ready := false, player_entity := none }
        ({ s2 with clients := insertClient s2.clients id cs }, sends, some id)
      | _ => (s, [], none)
    else (s, [], none)
  | _ => (s, [], none)

/-- Claim C2 (amended): when `BspMap::load` fails (missing file, bad magic,
unsupported version, truncated lump), `load_map` reports the error to the
caller and leaves `world`, `current_map` and the tick counter unchanged,
but the `state` field is left at `LoadingMap` rather than restored to its
prior value. -/
theorem C2_load_map_failure_state (fs : String → Option (List Nat)) (s : GameServer)
    (name : String) (h : BspMap.load fs name = none) :
    s.load_map fs name = ({ s with state := ServerState.LoadingMap }, false) := by
  unfold GameServer.load_map
  rw [h]

/-- Witness for C2: a missing file fails the load, changing only `state`. -/
theorem C2_load_map_failure_state_witness :
    BspMap.load (fun _ => none) "m" = none ∧
      GameServer.new.load_map (fun _ => none) "m" =
        ({ GameServer.new with state := ServerState.LoadingMap }, false) :=
  ⟨rfl, C2_load_map_failure_state (fun _ => none) GameServer.new "m" rfl⟩

/-- Counterexample for C2 as stated: a failed load from `Idle` leaves the
server in `LoadingMap`, not in its prior state. -/
theorem C2_load_map_failure_state_counterexample :
    GameServer.new.state = ServerState.Idle ∧
      (GameServer.new.load_map (fun _ => none) "nosuchmap").2 = false ∧
      (GameServer.new.load_map (fun _ => none) "nosuchmap").1.state = ServerState.LoadingMap ∧
      ServerState.LoadingMap ≠ ServerState.Idle := by
  refine ⟨rfl, rfl, rfl, by decide⟩

/-- The first spawn point of the current map, origin if none
(`server.rs` lines 307-313). -/
def GameServer.firstSpawnPos (s : GameServer) : Vec3 :=
  (match s.current_map with
    | some m => m.spawn_points
    | none => []).headD Vec3.ZERO

/-- A `Position` from a `Vec3` (the componentwise copy in `client_ready`). -/
def Position.ofVec (v : Vec3) : Position := ⟨v.x, v.y, v.z⟩

/-- Claim C4 (amended): on a `ClientReady` datagram naming an unknown
client id, the client table is unchanged and no client is marked ready,
but the world still gains one fresh entity spawned at the first spawn
point (origin if none): the spawn is unconditional, only the marking is
guarded by the table lookup. -/
theorem C4_client_ready_unknown (s : GameServer) (source : Nat) (cid : ClientId)
    (h : lookupClient s.clients cid = none) :
    s.handle_udp_message source (NetMsg.ClientReady cid) =
      { s with world :=
          ((s.world.spawn).2.insert (s.world.spawn).1 (Position.ofVec s.firstSpawnPos)) } := by
  simp only [GameServer.handle_udp_message, GameServer.client_ready, h,
    GameServer.firstSpawnPos, Position.ofVec]

/-- Witness for C4: an unknown `ClientReady` on a fresh server leaves the
client table alone but adds one world entity at the origin. -/
theorem C4_client_ready_unknown_witness :
    lookupClient GameServer.new.clients ⟨7⟩ = none ∧
      GameServer.new.handle_udp_message 5 (NetMsg.ClientReady ⟨7⟩) =
        { GameServer.new with world :=
            ((GameServer.new.world.spawn).2.insert (GameServer.new.world.spawn).1
              (Position.ofVec GameServer.new.firstSpawnPos)) } :=
  ⟨rfl, C4_client_ready_unknown GameServer.new 5 ⟨7⟩ rfl⟩

/-- Counterexample for C4 as stated: the world is not unchanged on an
unknown `ClientReady`. -/
theorem C4_client_ready_unknown_counterexample :
    lookupClient GameServer.new.clients ⟨7⟩ = none ∧
      (GameServer.new.handle_udp_message 5 (NetMsg.ClientReady ⟨7⟩)).world ≠
        GameServer.new.world := by
  exact ⟨rfl, by decide⟩

/-- Claim C6: a first handshake message `Hello` with a protocol different
from `PROTOCOL_VERSION` fails the handshake (the connection is torn down):
no client id is allocated (the counter is untouched), no reply is sent,
and no per-client record is registered — the server value is returned
unchanged. -/
theorem C6_handshake_version_mismatch (s : GameServer) (p : Nat) (rest : List NetMsg)
    (h : p ≠ PROTOCOL_VERSION) :
    s.accept_one (NetMsg.Hello p :: rest) = (s, [], none) := by
  simp only [GameServer.accept_one]
  rw [if_neg h]

/-- Witness for C6: `Hello{protocol = 2}` against version 1. -/
theorem C6_handshake_version_mismatch_witness :
    (2 : Nat) ≠ PROTOCOL_VERSION ∧
      GameServer.new.accept_one [NetMsg.Hello 2] = (GameServer.new, [], none) :=
  ⟨by decide, C6_handshake_version_mismatch GameServer.new 2 [] (by decide)⟩

theorem handle_udp_preserves (s : GameServer) (source : Nat) (msg : NetMsg) :
    (s.handle_udp_message source msg).tick = s.tick ∧
      (s.handle_udp_message source msg).state = s.state := by
  cases msg with
  | PlayerCommand cmd =>
    simp only [GameServer.handle_udp_message, GameServer.on_command]
    cases lookupClient s.clients cmd.client_id with
    | none => exact ⟨by trivial, by trivial⟩
    | some c => cases c.player_entity <;> exact ⟨by trivial, by trivial⟩
  | ClientReady cid =>
    simp only [GameServer.handle_udp_message, GameServer.client_ready]
    cases lookupClient s.clients cid <;> exact ⟨by trivial, by trivial⟩
  | ClientCommand c => exact ⟨rfl, rfl⟩
  | Hello p => exact ⟨rfl, rfl⟩
  | UdpHello p => exact ⟨rfl, rfl⟩
  | Welcome c => exact ⟨rfl, rfl⟩
  | MapInfo i => exact ⟨rfl, rfl⟩
  | EntitySpawn sp => exact ⟨rfl, rfl⟩
  | EntityUpdate st => exact ⟨rfl, rfl⟩
  | EntityDelete i => exact ⟨rfl, rfl⟩
  | Snapshot sn => exact ⟨rfl, rfl⟩
  | ServerPrint m => exact ⟨rfl, rfl⟩
  | Disconnect r => exact ⟨rfl, rfl⟩

theorem foldl_udp_preserves (l : List (Nat × NetMsg)) (s : GameServer) :
    ((l.foldl (fun acc m => acc.handle_udp_message m.1 m.2) s).tick = s.tick ∧
      (l.foldl (fun acc m => acc.handle_udp_message m.1 m.2) s).state = s.state) := by
  induction l generalizing s with
  | nil => exact ⟨rfl, rfl⟩
  | cons m rest ih =>
    simp only [List.foldl_cons]
    obtain ⟨h1, h2⟩ := ih (s.handle_udp_message m.1 m.2)
    obtain ⟨g1, g2⟩ := handle_udp_preserves s m.1 m.2
    exact ⟨by rw [h1, g1], by rw [h2, g2]⟩

/-- Claim C3 (amended): the ticks of the snapshots a server broadcasts are
strictly increasing across any run of steps that executes no console
command (so no map load happens mid-run); a successful mid-run `load_map`
resets the tick counter to 0 and breaks the monotonicity, as the
counterexample shows. -/
theorem C3_snapshot_ticks_monotone (fs : String → Option (List Nat)) (inputs : List StepInput)
    (s : GameServer) (h : ∀ inp ∈ inputs, inp.console = []) :
    List.Chain' (fun a b => a < b) ((s.run fs inputs).2.map Snapshot.tick) ∧
      ∀ sn ∈ (s.run fs inputs).2, s.tick ≤ sn.tick := by
  induction inputs generalizing s with
  | nil =>
    constructor
    · simp [GameServer.run]
    · intro sn hsn
      simp [GameServer.run] at hsn
  | cons inp rest ih =>
    have hc : inp.console = [] := h inp (List.mem_cons_self inp rest)
    have hrest : ∀ i ∈ rest, i.console = [] := fun i hi => h i (List.mem_cons_of_mem inp hi)
    simp only [GameServer.run, GameServer.step, hc, List.foldl_nil]
    obtain ⟨hp1, hp2⟩ := foldl_udp_preserves inp.udp s
    obtain ⟨ih1, ih2⟩ :=
      ih { inp.udp.foldl (fun acc m => acc.handle_udp_message m.1 m.2) s with
            tick := (inp.udp.foldl (fun acc m => acc.handle_udp_message m.1 m.2) s).tick + 1 }
        hrest
    by_cases hr :
        (inp.udp.foldl (fun acc m => acc.handle_udp_message m.1 m.2) s).state =
          ServerState.Running
    · simp only [if_pos hr]
      constructor
      · simp only [List.singleton_append, List.map_cons]
        rw [List.chain'_cons']
        refine ⟨?_, ih1⟩
        intro b hb
        have hmem : b ∈ ((({ inp.udp.foldl (fun acc m => acc.handle_udp_message m.1 m.2) s with
            tick := (inp.udp.foldl (fun acc m => acc.handle_udp_message m.1 m.2) s).tick +
              1 } : GameServer).run fs rest).2.map Snapshot.tick) :=
          List.mem_of_mem_head? hb
        obtain ⟨sn, hsn, rfl⟩ := List.mem_map.mp hmem
        have := ih2 sn hsn
        simp only [GameServer.buildSnapshot]
        simp only at this
        omega
      · intro sn hsn
        simp only [List.singleton_append, List.mem_cons] at hsn
        rcases hsn with rfl | hsn
        · simp only [GameServer.buildSnapshot]
          omega
        · have := ih2 sn hsn
          simp only at this
          omega
    · simp only [if_neg hr, List.nil_append]
      refine ⟨ih1, ?_⟩
      intro sn hsn
      have := ih2 sn hsn
      simp only at this
      omega

set_option maxRecDepth 400000

/-- A minimal well-formed BSP file: magic, version 19, 64 all-zero lump
descriptors (every lump empty), revision 0. -/
def minimalBsp : List Nat := [0x56, 0x42, 0x53, 0x50, 19, 0, 0, 0] ++ List.replicate 1028 0

/-- A maps directory holding the single map `m`. -/
def c3Fs : String → Option (List Nat) := fun n => if n = "m" then some minimalBsp else none

/-- A running server built through the public operations: load map `m`,
accept one client (protocol 1, UDP port 7), and mark it ready. -/
def c3Server : GameServer :=
  let s1 := (GameServer.new.load_map c3Fs "m").1
  let s2 := (s1.accept_one [NetMsg.Hello 1, NetMsg.UdpHello 7]).1
  s2.handle_udp_message 9 (NetMsg.ClientReady ⟨1⟩)

/-- Four steps: two quiet ticks, a mid-run `map m` console command, one
more quiet tick. -/
def c3Inputs : List StepInput := [⟨[], []⟩, ⟨[], []⟩, ⟨["map m"], []⟩, ⟨[], []⟩]

/-- Counterexample for C3 as stated: with a ready client, the run emits
snapshots with ticks 0, 1, 0, 1 — the successful mid-run `load_map` resets
the tick counter, so the sequence is not strictly increasing. -/
theorem C3_snapshot_ticks_monotone_counterexample :
    (c3Server.clients.map fun kv => kv.2.ready) = [true] ∧
      (GameServer.run c3Fs c3Server c3Inputs).2.map Snapshot.tick = [0, 1, 0, 1] ∧
      ¬ List.Chain' (fun a b => a < b) [0, 1, 0, 1] := by
  refine ⟨by decide, by decide, ?_⟩
  intro h
  rw [List.chain'_cons, List.chain'_cons] at h
  exact absurd h.2.1 (by omega)

/-- Witness for C3: two quiet steps on the ready server emit strictly
increasing ticks. -/
theorem C3_snapshot_ticks_monotone_witness :
    (∀ inp ∈ ([⟨[], []⟩, ⟨[], []⟩] : List StepInput), inp.console = []) ∧
      List.Chain' (fun a b => a < b)
        ((c3Server.run c3Fs [⟨[], []⟩, ⟨[], []⟩]).2.map Snapshot.tick) :=
  ⟨by decide,
    (C3_snapshot_ticks_monotone c3Fs [⟨[], []⟩, ⟨[], []⟩] c3Server (by decide)).1⟩
